import Mathlib

/-!
Shallow embedding of the `task` package (a concurrent task-orchestration
engine written in Go) and proofs about its orchestration logic.

Sources embedded: `director.go` (Director, execWorkplace, execWorkerLoop,
execWorkerTickers, execWorkerWithTicker, execWorker, listenChannel,
loopController), `worker.go` (workerParams, defaultWorkerParams and the
configuration option functions), `workplace.go` (workplace, workplaceSyncs)
and `middleware.go` (WorkplaceStatus, TimeoutMiddleware).

Modelling conventions:
* `interface{}` values are a type parameter `V`; `error` values are a type
  parameter `E` (a Go `error` is either `nil`, modelled `Option.none`, or a
  concrete value).
* A goroutine's interaction with time (delays, tickers) does not change
  which invocations happen, only when; traces of invocations abstract it
  away and record, per strand, the argument list of each worker invocation
  in order.
* Unbounded loops (infinite repeat, ticker strands) are modelled with
  explicit fuel: `fuel` bounds how many iterations we observe.  A strand
  that never exits consumes all fuel; a strand that exits produces the same
  trace for every sufficiently large fuel.
* Go channels that deliver a finite sequence of values and are then closed
  are modelled as `List V`.
* An unrecovered `panic` aborts the program: it is modelled as a distinct
  outcome constructor, after which nothing further executes.
* Go's `uint(max)` conversion of a (64-bit) `int` is modelled as
  `(max % 2^64).toNat` on the mathematical integer.
-/

namespace Task

/-- Width of Go's `uint`/`uint64` on the reference platform. -/
def U64 : Nat := 2 ^ 64

/-- Embedding of `workerParams` (worker.go).  `delayFunc` keeps only the
durations it would produce (time is not modelled otherwise); a Go `nil`
function is `none`.  `notifyOnErrorChan` keeps only nil-ness of the channel.
`eventChannels` lists, per channel, the values received before close.
`rootContext` carries no information in this model. -/
structure workerParams (V : Type) where
  id : String
  firstArgs : List V
  delayFunc : Option (Unit → Nat)
  amountOfExecutions : Int
  nextWorkers : List String
  notifyOnError : Bool
  panicOnError : Bool
  notifyOnErrorChan : Option Unit
  stopOnError : Bool
  tickerDurations : List Nat
  eventChannels : List (List V)

/-- Embedding of `defaultWorkerParams` (worker.go): Go zero values with the
explicitly set `amountOfExecutions = 0` and `stopOnError = true`. -/
def defaultWorkerParams (V : Type) : workerParams V :=
  { id := ""
    firstArgs := []
    delayFunc := none
    amountOfExecutions := 0
    nextWorkers := []
    notifyOnError := false
    panicOnError := false
    notifyOnErrorChan := none
    stopOnError := true
    tickerDurations := []
    eventChannels := [] }

/-- A `WorkerParameter` is a configuration transform. -/
def WorkerParameter (V : Type) : Type := workerParams V → workerParams V

/-- `Id(id)` (worker.go). -/
def IdParam (V : Type) (id : String) : WorkerParameter V :=
  fun params => { params with id := id }

/-- `Repeat(n)` (worker.go). -/
def Repeat (V : Type) (n : Int) : WorkerParameter V :=
  fun params => { params with amountOfExecutions := n }

/-- `Infinitely()` (worker.go): shortcut for `Repeat(-1)`. -/
def Infinitely (V : Type) : WorkerParameter V :=
  Repeat V (-1)

/-- `WithArgs(args...)` (worker.go). -/
def WithArgs (V : Type) (args : List V) : WorkerParameter V :=
  fun params => { params with firstArgs := args }

/-- `NotifyError(errCh)` (worker.go): `notifyOnError` is set to
`errCh != nil`; the channel itself is stored. -/
def NotifyError (V : Type) (errCh : Option Unit) : WorkerParameter V :=
  fun params =>
    { params with notifyOnError := errCh.isSome, notifyOnErrorChan := errCh }

/-- `IgnoreWorkerErrors(ignore)` (worker.go): `stopOnError = !ignore`. -/
def IgnoreWorkerErrors (V : Type) (ignore : Bool) : WorkerParameter V :=
  fun params => { params with stopOnError := !ignore }

/-- `PanicOnError(p)` (worker.go). -/
def PanicOnError (V : Type) (p : Bool) : WorkerParameter V :=
  fun params => { params with panicOnError := p }

/-- `Next(ids...)` (worker.go): appends to the `next` list. -/
def NextParam (V : Type) (ids : List String) : WorkerParameter V :=
  fun params => { params with nextWorkers := params.nextWorkers ++ ids }

/-- `Every(duration)` (worker.go): appends a ticker period. -/
def Every (V : Type) (duration : Nat) : WorkerParameter V :=
  fun params =>
    { params with tickerDurations := params.tickerDurations ++ [duration] }

/-- Embedding of `workplaceSyncs` (workplace.go): the integer counter held
by each of the three `sync.WaitGroup`s. -/
structure workplaceSyncs where
  loopSync : Int
  tickerSync : Int
  eventSync : Int
deriving DecidableEq

/-- A worker's `Work` method (worker.go): from the argument list to the
result list and an optional error.  The context argument carries no
information in this model and is dropped. -/
def WorkerFun (V E : Type) : Type := List V → List V × Option E

/-- Embedding of `workplace` (workplace.go).  The `syncs` pointer is not
part of the routing data and is modelled separately where needed. -/
structure workplace (V E : Type) where
  id : String
  worker : WorkerFun V E
  params : workerParams V

/-- Registry lookup `d.workplaces[id]` on the map of workplaces, modelled
as an association list. -/
def lookupWp (V E : Type) (reg : List (String × workplace V E)) (id : String) :
    Option (workplace V E) :=
  match reg with
  | [] => none
  | (k, wp) :: rest => if k = id then some wp else lookupWp V E rest id

/-- How a single `execWorker` call ends: either the goroutine panics with
the worker's error (unrecovered, aborting the program), or it returns the
result list and the boolean continue flag, having started the listed
downstream invocations (`go d.execWorker(&nextWp, results...)`), recorded
as (station id, argument list) pairs. -/
inductive ExecOutcome (V E : Type) where
  | panicked (e : E)
  | returned (results : List V) (cont : Bool) (spawns : List (String × List V))
deriving DecidableEq

/-- Full observable behaviour of one `execWorker` call: the errors sent on
the notify channel, then the outcome. -/
structure ExecOut (V E : Type) where
  notified : List E
  outcome : ExecOutcome V E
deriving DecidableEq

/-- Does an `execWorker` outcome let the triggering strand continue?
(`ok` in director.go: the call returned with `continue = true`.) -/
def outcomeContinues (V E : Type) : ExecOutcome V E → Bool
  | .returned _ true _ => true
  | _ => false

/-- The downstream spawns started by `execWorker`'s final loop: for each
configured next id, look it up in the registry and, if present, start an
invocation with this call's results; absent ids are skipped. -/
def spawnList (V E : Type) (reg : List (String × workplace V E))
    (next : List String) (results : List V) : List (String × List V) :=
  (next.filter (fun id => (lookupWp V E reg id).isSome)).map
    (fun id => (id, results))

/-- Embedding of `Director.execWorker` (director.go, lines 155-183).
Invokes the worker (with no arguments and with arguments the callee sees
the same list), then: on error, notify if `notifyOnError`; panic if
`panicOnError`; return `(results, false)` if `stopOnError`.  Otherwise
start the downstream spawns and return `(results, true)`. -/
def execWorker (V E : Type) (reg : List (String × workplace V E))
    (wp : workplace V E) (args : List V) : ExecOut V E :=
  let r := wp.worker args
  let results := r.1
  match r.2 with
  | some err =>
    let notified := if wp.params.notifyOnError then [err] else []
    if wp.params.panicOnError then
      ⟨notified, .panicked err⟩
    else if wp.params.stopOnError then
      ⟨notified, .returned results false []⟩
    else
      ⟨notified, .returned results true
        (spawnList V E reg wp.params.nextWorkers results)⟩
  | none =>
    ⟨[], .returned results true
      (spawnList V E reg wp.params.nextWorkers results)⟩

/-- Embedding of `loopController` (director.go, lines 203-225). -/
structure loopController where
  n : Nat
  max : Nat
  inf : Bool
deriving DecidableEq

/-- `newLoopController(max)` (director.go): `max` is converted with Go's
`uint(max)` (wrap modulo `2^64`); `inf` records `max < 0`. -/
def newLoopController (max : Int) : loopController :=
  { n := 0
    max := (max % (U64 : Int)).toNat
    inf := decide (max < 0) }

/-- `loopController.check` (director.go): `c.inf || c.n < c.max`. -/
def loopController.check (c : loopController) : Bool :=
  c.inf || decide (c.n < c.max)

/-- `loopController.inc` (director.go): increment `n` unless infinite. -/
def loopController.inc (c : loopController) : loopController :=
  if c.inf then c else { c with n := c.n + 1 }

/-- Body of `Director.execWorkerLoop` (director.go, lines 109-128), as the
trace of argument lists passed to the worker.  Each iteration checks the
controller, invokes `execWorker` threading the results into the next
iteration's arguments (`args, ok = d.execWorker(wp, args...)`), exits on
`!ok`, and otherwise waits out the delay rule when one is set (the wait has
no observable effect on the trace).  An invocation that panics still
happened, so it appears in the trace and nothing follows it.  `fuel` bounds
how many iterations are observed (the controller alone bounds them only
when `inf` is false). -/
def execWorkerLoopAux (V E : Type) (reg : List (String × workplace V E))
    (wp : workplace V E) :
    Nat → loopController → List V → List (List V)
  | 0, _, _ => []
  | fuel + 1, c, args =>
    if c.check then
      match (execWorker V E reg wp args).outcome with
      | .panicked _ => [args]
      | .returned results cont _ =>
        if cont then args :: execWorkerLoopAux V E reg wp fuel c.inc results
        else [args]
    else []

/-- `Director.execWorkerLoop` entry: the controller is seeded with
`wp.params.amountOfExecutions` and the arguments with
`wp.params.firstArgs`. -/
def execWorkerLoopTrace (V E : Type) (reg : List (String × workplace V E))
    (wp : workplace V E) (fuel : Nat) : List (List V) :=
  execWorkerLoopAux V E reg wp fuel
    (newLoopController wp.params.amountOfExecutions) wp.params.firstArgs

/-- Body of `Director.execWorkerWithTicker` (director.go, lines 138-152),
as the trace of argument lists passed to the worker, one per tick.  The
ticker fires `fuel` observed times at most; each tick runs
`args, ok = d.execWorker(wp, args...)` — the results are assigned back to
`args` — and stops the ticker and exits on `!ok`. -/
def execWorkerWithTickerAux (V E : Type) (reg : List (String × workplace V E))
    (wp : workplace V E) : Nat → List V → List (List V)
  | 0, _ => []
  | fuel + 1, args =>
    match (execWorker V E reg wp args).outcome with
    | .panicked _ => [args]
    | .returned results cont _ =>
      if cont then args :: execWorkerWithTickerAux V E reg wp fuel results
      else [args]

/-- `Director.execWorkerWithTicker` entry: `args` starts at
`wp.params.firstArgs`. -/
def execWorkerWithTickerTrace (V E : Type)
    (reg : List (String × workplace V E)) (wp : workplace V E)
    (fuel : Nat) : List (List V) :=
  execWorkerWithTickerAux V E reg wp fuel wp.params.firstArgs

/-- Embedding of `Director.listenChannel` (director.go, lines 193-201), as
the trace of argument lists passed to the worker.  The channel delivers
`events` then closes; each received value triggers
`_, ok := d.execWorker(wp, event)` with that value as the only argument,
and the strand returns on `!ok`. -/
def listenChannelTrace (V E : Type) (reg : List (String × workplace V E))
    (wp : workplace V E) : List V → List (List V)
  | [] => []
  | event :: rest =>
    match (execWorker V E reg wp [event]).outcome with
    | .panicked _ => [[event]]
    | .returned _ cont _ =>
      if cont then [event] :: listenChannelTrace V E reg wp rest
      else [[event]]

/-- The three per-station `sync.WaitGroup`s, per station id: the engine's
completion-counter state that `Director.Wait` blocks on. -/
def SyncState : Type := String → workplaceSyncs

/-- Counter operations an engine step can perform on a station's
`workplaceSyncs` (the `Add`/`Done` calls of director.go), plus the
non-counter effects of an invocation (error notification). -/
inductive Eff (E : Type) where
  | loopAdd (id : String) (delta : Int)
  | tickerAdd (id : String) (delta : Int)
  | eventAdd (id : String) (delta : Int)
  | notify (id : String) (e : E)
deriving DecidableEq

/-- Apply one effect to the completion-counter state (notify effects do not
touch counters). -/
def applyEff (E : Type) (s : SyncState) : Eff E → SyncState
  | .loopAdd id delta => fun k =>
    if k = id then { s k with loopSync := (s k).loopSync + delta } else s k
  | .tickerAdd id delta => fun k =>
    if k = id then { s k with tickerSync := (s k).tickerSync + delta } else s k
  | .eventAdd id delta => fun k =>
    if k = id then { s k with eventSync := (s k).eventSync + delta } else s k
  | .notify _ _ => s

/-- Apply a sequence of effects in order. -/
def applyEffs (E : Type) (s : SyncState) (effs : List (Eff E)) : SyncState :=
  effs.foldl (applyEff E) s

/-- `Director.Wait`'s unblocking condition restricted to the stations in
`ids`: every tracked counter of every listed station is zero
(`workplaceSyncs.Wait` returns). -/
def waitUnblocked (ids : List String) (s : SyncState) : Bool :=
  ids.all (fun id => s id = ⟨0, 0, 0⟩)

/-- Effects produced by one `execWorker` call (director.go, lines 155-183)
and, recursively, by the detached downstream cascade it starts with
`go d.execWorker(&nextWp, results...)`: the call's own notification sends,
followed by the effects of each spawned downstream invocation, which
cascades further.  `fuel` bounds the observed cascade depth.  `execWorker`
performs no `Add`/`Done` on any `workplaceSyncs`, so no counter effect is
ever emitted here — that is the content of the frame theorem below. -/
def execWorkerCascadeEffs (V E : Type) (reg : List (String × workplace V E)) :
    Nat → workplace V E → List V → List (Eff E)
  | 0, _, _ => []
  | fuel + 1, wp, args =>
    let out := execWorker V E reg wp args
    let own := out.notified.map (fun e => Eff.notify wp.id e)
    match out.outcome with
    | .panicked _ => own
    | .returned _ _ spawns =>
      own ++ spawns.flatMap (fun sp =>
        match lookupWp V E reg sp.1 with
        | some nextWp => execWorkerCascadeEffs V E reg fuel nextWp sp.2
        | none => [])

/-- The two usage errors of director.go (lines 11-14). -/
inductive DirectorError where
  | directorAlreadyWorks
  | directorNotWorks
deriving DecidableEq

/-- Embedding of `Director` (director.go).  The mutex serializes the public
calls, which are modelled as sequential state transformers.  The impure
`options.idGenerator` (`func() string`) is modelled as a stream: the `k`-th
call returns `idGen k`, and `genCount` counts calls made so far. -/
structure Director (V E : Type) where
  workplaces : List (String × workplace V E)
  idGen : Nat → String
  genCount : Nat
  started : Bool

/-- Go map assignment `d.workplaces[id] = wp`: overwrite the entry when the
key is present, otherwise append. -/
def mapAssign (V E : Type) (reg : List (String × workplace V E))
    (id : String) (wp : workplace V E) : List (String × workplace V E) :=
  match reg with
  | [] => [(id, wp)]
  | (k, w) :: rest =>
    if k = id then (k, wp) :: rest
    else (k, w) :: mapAssign V E rest id wp

/-- A public call either panics with a usage error — the director's state
at the moment of the panic is returned unchanged alongside the error — or
completes normally (`none`). -/
def DirectorCall (V E : Type) : Type := Director V E × Option DirectorError

/-- Embedding of `Director.With` (director.go, lines 40-62).  Panics with
`DirectorAlreadyWorks` when already started; otherwise builds the params by
applying the options in order over the defaults, resolves the id (explicit
id wins, else the generator), and inserts the workplace into the
registry. -/
def Director.With (V E : Type) (d : Director V E) (worker : WorkerFun V E)
    (params : List (WorkerParameter V)) : DirectorCall V E :=
  if d.started then
    (d, some .directorAlreadyWorks)
  else
    let p := params.foldl (fun acc param => param acc) (defaultWorkerParams V)
    let useGen := p.id = ""
    let id := if useGen then d.idGen d.genCount else p.id
    let wp : workplace V E := { id := id, worker := worker, params := p }
    ({ d with
        workplaces := mapAssign V E d.workplaces id wp
        genCount := if useGen then d.genCount + 1 else d.genCount },
      none)

/-- The body of `Begin`'s nested loops (director.go, lines 75-79):
`for _, wp := range d.workplaces { param(&wp.params) }`.  Ranging over a Go
map of struct values yields a copy of each value, so `param(&wp.params)`
mutates only the loop-local copy — written here as the dead let-binding
`_wpAfterParam` — and the registry entry is returned unchanged. -/
def beginRangeIteration (V E : Type) (param : WorkerParameter V)
    (entry : String × workplace V E) : String × workplace V E :=
  let wp := entry.2
  let _wpAfterParam := { wp with params := param wp.params }
  entry

/-- `Begin`'s parameter-application pass (director.go, lines 74-79): each
configuration function is run through `beginRangeIteration` over every
registry entry. -/
def beginApplyParams (V E : Type) (reg : List (String × workplace V E))
    (params : List (WorkerParameter V)) : List (String × workplace V E) :=
  params.foldl
    (fun acc param => acc.map (beginRangeIteration V E param)) reg

/-- Embedding of `Director.Begin` (director.go, lines 66-83).  Panics with
`DirectorAlreadyWorks` when already started; otherwise flips `started`,
runs the parameter-application pass over the registry, and launches every
station's strands (`execWorkplace`); the launch fan-out itself changes no
director field. -/
def Director.Begin (V E : Type) (d : Director V E)
    (params : List (WorkerParameter V)) : DirectorCall V E :=
  if d.started then
    (d, some .directorAlreadyWorks)
  else
    ({ d with
        started := true
        workplaces := beginApplyParams V E d.workplaces params },
      none)

/-- Embedding of `Director.Wait` (director.go, lines 87-94).  Panics with
`DirectorNotWorks` when not started; otherwise blocks on every station's
`syncs.Wait()` and returns with the director unchanged. -/
def Director.Wait (V E : Type) (d : Director V E) : DirectorCall V E :=
  if !d.started then
    (d, some .directorNotWorks)
  else
    (d, none)

/-- Embedding of `WorkplaceStatus` (middleware.go, lines 8-12): the two
`uint64` counters, kept as naturals strictly below `2^64`. -/
structure WorkplaceStatus where
  working : Nat
  executed : Nat
deriving DecidableEq

/-- `atomic.AddUint64(&x, delta)` as modular arithmetic; a decrement adds
`2^64 - 1`. -/
def addUint64 (x delta : Nat) : Nat :=
  (x + delta) % U64

/-- Embedding of `WorkplaceStatus.Work` (middleware.go, lines 20-27): on
entry increments `working` and `executed`; then calls `next.Work`; the
deferred decrement of `working` runs on return.  Returns the counter state
after return together with the wrapped worker's output. -/
def WorkplaceStatus.Work (V E : Type) (next : WorkerFun V E)
    (s : WorkplaceStatus) (args : List V) :
    WorkplaceStatus × (List V × Option E) :=
  let s1 : WorkplaceStatus :=
    { working := addUint64 s.working 1, executed := addUint64 s.executed 1 }
  let out := next args
  ({ s1 with working := addUint64 s1.working (U64 - 1) }, out)

/-- Embedding of `WorkplaceStatus.Busy` (middleware.go, lines 29-31):
`atomic.LoadUint64(&s.working) == 0`. -/
def WorkplaceStatus.Busy (s : WorkplaceStatus) : Bool :=
  s.working == 0

/-- What `TimeoutMiddleware.Work` (middleware.go, lines 88-115) can return:
the cancellation scope's own error (`ctx.Err()`), the distinct
`TimeoutError`, the wrapped worker's error, or its results. -/
inductive TMResult (V E : Type) where
  | ctxError
  | timeoutError
  | workerError (e : E)
  | ok (results : List V)
deriving DecidableEq

/-- Embedding of `TimeoutMiddleware.Work` (middleware.go, lines 88-115).
Timing model: the context's `Done` channel fires at `ctxDoneAt` (`none` =
never), the timer fires at time `timeout`, and the wrapped worker's
goroutine delivers its output (a result on `result` or an error on `e`,
per `workOut`) at time `workDur`.  The `select` takes whichever channel is
ready first; when several fire at the same instant Go chooses uniformly at
random, and this model fixes the tie order context, then timer, then
worker — the theorems below only use strict orderings, where the tie-break
is irrelevant. -/
def TimeoutMiddlewareWork (V E : Type) (ctxDoneAt : Option Nat)
    (timeout : Nat) (workDur : Nat) (workOut : List V ⊕ E) : TMResult V E :=
  let rest : TMResult V E :=
    if timeout ≤ workDur then .timeoutError
    else
      match workOut with
      | .inl results => .ok results
      | .inr e => .workerError e
  match ctxDoneAt with
  | some c => if c ≤ timeout ∧ c ≤ workDur then .ctxError else rest
  | none => rest

/-! ## Concrete fixtures used to evaluate the theorems on closed inputs -/

/-- A station with repeat count 3, no delay, and an always-succeeding
worker that echoes its arguments. -/
def wpRepeat3 : workplace Nat Nat :=
  { id := "w"
    worker := fun a => (a, none)
    params := { defaultWorkerParams Nat with amountOfExecutions := 3 } }

/-- A station whose worker always fails with error `7`, configured to both
stop and panic on error. -/
def wpPanicStop : workplace Nat Nat :=
  { id := "p"
    worker := fun _ => ([], some 7)
    params :=
      { defaultWorkerParams Nat with stopOnError := true, panicOnError := true } }

/-- A station whose always-succeeding worker appends `0` to its arguments,
making each invocation's results differ from the initial arguments. -/
def wpAppend : workplace Nat Nat :=
  { id := "t"
    worker := fun a => (a ++ [0], none)
    params := { defaultWorkerParams Nat with tickerDurations := [1] } }

/-- A registry fixture holding `wpRepeat3` under id `"w"`. -/
def regSample : List (String × workplace Nat Nat) := [("w", wpRepeat3)]

/-- A station configured to fan out to downstream ids `"w"` (present in
`regSample`) and `"missing"` (absent); its worker appends `1` to its
arguments and succeeds. -/
def wpChain : workplace Nat Nat :=
  { id := "c"
    worker := fun a => (a ++ [1], none)
    params := { defaultWorkerParams Nat with nextWorkers := ["w", "missing"] } }

/-- A station with the panic policy set whose worker nevertheless always
succeeds (echoing its arguments), fanning out to `"w"`: the panic policy
never fires on it. -/
def wpPanicOk : workplace Nat Nat :=
  { id := "q"
    worker := fun a => (a, none)
    params :=
      { defaultWorkerParams Nat with panicOnError := true, nextWorkers := ["w"] } }

/-- A director fixture: `wpRepeat3` registered under `"w"`, not started. -/
def directorSample : Director Nat Nat :=
  { workplaces := regSample
    idGen := fun _ => "gen0"
    genCount := 0
    started := false }

/-- `directorSample` after start. -/
def directorStarted : Director Nat Nat :=
  { directorSample with started := true }

/-! ## General lemmas about `execWorker` and the strand traces -/

/-- A successful invocation never notifies, returns the worker's results
with `continue = true`, and starts the downstream spawns. -/
theorem execWorker_ok (V E : Type) (reg : List (String × workplace V E))
    (wp : workplace V E) (args : List V)
    (h : (wp.worker args).2 = none) :
    execWorker V E reg wp args =
      ⟨[], .returned (wp.worker args).1 true
        (spawnList V E reg wp.params.nextWorkers (wp.worker args).1)⟩ := by
  simp [execWorker, h]

/-- One successful loop iteration: the trace records the current arguments
and continues with the incremented controller and the results as the new
arguments. -/
theorem execWorkerLoopAux_succ_ok (V E : Type)
    (reg : List (String × workplace V E)) (wp : workplace V E)
    (fuel : Nat) (c : loopController) (args : List V)
    (h : (wp.worker args).2 = none) (hcheck : c.check = true) :
    execWorkerLoopAux V E reg wp (fuel + 1) c args =
      args :: execWorkerLoopAux V E reg wp fuel c.inc (wp.worker args).1 := by
  rw [execWorkerLoopAux, hcheck, execWorker_ok V E reg wp args h]
  simp

/-- Length of the loop-strand trace for a bounded controller and an
always-succeeding worker: the smaller of the remaining iteration budget and
the fuel. -/
theorem execWorkerLoopAux_length (V E : Type)
    (reg : List (String × workplace V E)) (wp : workplace V E)
    (hok : ∀ args, (wp.worker args).2 = none) :
    ∀ (fuel : Nat) (c : loopController) (args : List V), c.inf = false →
      (execWorkerLoopAux V E reg wp fuel c args).length =
        min (c.max - c.n) fuel := by
  intro fuel
  induction fuel with
  | zero => intro c args hc; simp [execWorkerLoopAux]
  | succ fuel ih =>
    intro c args hc
    by_cases hlt : c.n < c.max
    · have hcheck : c.check = true := by
        simp [loopController.check, hc, hlt]
      have hinc : c.inc = { c with n := c.n + 1 } := by
        simp [loopController.inc, hc]
      rw [execWorkerLoopAux_succ_ok V E reg wp fuel c args (hok args) hcheck,
        List.length_cons, hinc, ih { c with n := c.n + 1 } _ (by simp [hc])]
      simp only
      omega
    · have hcheck : c.check = false := by
        simp [loopController.check, hc, hlt]
      rw [execWorkerLoopAux, hcheck]
      simp only [Bool.false_eq_true, if_false, List.length_nil]
      omega

/-- Length of the loop-strand trace for an unbounded (`inf`) controller and
an always-succeeding worker: all the fuel is consumed (the strand never
exits). -/
theorem execWorkerLoopAux_length_inf (V E : Type)
    (reg : List (String × workplace V E)) (wp : workplace V E)
    (hok : ∀ args, (wp.worker args).2 = none) :
    ∀ (fuel : Nat) (c : loopController) (args : List V), c.inf = true →
      (execWorkerLoopAux V E reg wp fuel c args).length = fuel := by
  intro fuel
  induction fuel with
  | zero => intro c args hc; simp [execWorkerLoopAux]
  | succ fuel ih =>
    intro c args hc
    have hcheck : c.check = true := by simp [loopController.check, hc]
    have hinc : c.inc = c := by simp [loopController.inc, hc]
    rw [execWorkerLoopAux_succ_ok V E reg wp fuel c args (hok args) hcheck,
      List.length_cons, hinc, ih c _ hc]

/-- `newLoopController` on a non-negative representable bound: counts from
`0` up to the bound, not infinite. -/
theorem newLoopController_ofNat (n : Nat) (h : n < 2 ^ 64) :
    newLoopController (n : Int) = ⟨0, n, false⟩ := by
  simp only [newLoopController, loopController.mk.injEq, U64]
  refine ⟨trivial, ?_, ?_⟩
  · omega
  · simp

/-- `newLoopController` on a negative bound is infinite. -/
theorem newLoopController_neg (m : Int) (h : m < 0) :
    (newLoopController m).inf = true := by
  simp [newLoopController, h]

/-! ## C1: loop-strand repeat semantics -/

/-- C1: a station configured with repeat count `n ≥ 0` (within Go's int
range) and no delay rule, whose worker invocations all succeed, has its
worker invoked exactly `n` times by the loop strand, after which the strand
exits without invoking again (the trace length is `n` for every fuel
`≥ n`); the default repeat count is `0`, so the loop body never executes by
default; and a negative repeat count disables the bound: the strand
consumes any amount of fuel without exiting. -/
theorem loop_strand_repeat_semantics
    (V E : Type) (reg : List (String × workplace V E)) (wp : workplace V E)
    (n fuel : Nat)
    (hn : wp.params.amountOfExecutions = (n : Int))
    (hrange : n < 2 ^ 63)
    (hdelay : wp.params.delayFunc = none)
    (hok : ∀ args, (wp.worker args).2 = none)
    (hfuel : n ≤ fuel) :
    (execWorkerLoopTrace V E reg wp fuel).length = n
    ∧ (defaultWorkerParams V).amountOfExecutions = 0
    ∧ (∀ (wq : workplace V E) (fuel' : Nat),
        wq.params.amountOfExecutions < 0 →
        (∀ args, (wq.worker args).2 = none) →
        (execWorkerLoopTrace V E reg wq fuel').length = fuel') := by
  refine ⟨?_, rfl, ?_⟩
  · rw [execWorkerLoopTrace, hn, newLoopController_ofNat n (by omega),
      execWorkerLoopAux_length V E reg wp hok fuel ⟨0, n, false⟩
        wp.params.firstArgs rfl]
    show min (n - 0) fuel = n
    omega
  · intro wq fuel' hneg hok'
    rw [execWorkerLoopTrace,
      execWorkerLoopAux_length_inf V E reg wq hok' fuel' _ _
        (newLoopController_neg _ hneg)]

/-- Witness for C1: the repeat-3 fixture, observed with fuel 5, invokes its
worker exactly 3 times, and the default repeat count is 0. -/
theorem loop_strand_repeat_semantics_witness :
    (execWorkerLoopTrace Nat Nat [] wpRepeat3 5).length = 3
    ∧ (defaultWorkerParams Nat).amountOfExecutions = 0 :=
  ⟨(loop_strand_repeat_semantics Nat Nat [] wpRepeat3 3 5 rfl (by norm_num)
      rfl (fun _ => rfl) (by norm_num)).1,
   (loop_strand_repeat_semantics Nat Nat [] wpRepeat3 3 5 rfl (by norm_num)
      rfl (fun _ => rfl) (by norm_num)).2.1⟩

/-! ## C2: halt-on-error versus downstream cascade in `execWorker` -/

/-- C2 counterexample: the claim omits the panic policy, which `execWorker`
checks before `stopOnError`.  On `wpPanicStop` (failing worker, both
`panicOnError` and `stopOnError` set) the claim predicts a return of
`(results, continue = false)`; the code instead panics, so no "stop" is
ever reported to the triggering strand. -/
theorem execWorker_halt_claim_counterexample :
    (execWorker Nat Nat [] wpPanicStop []).outcome = .panicked 7
    ∧ (execWorker Nat Nat [] wpPanicStop []).outcome ≠
        .returned ([] : List Nat) false [] := by
  constructor
  · rfl
  · decide

/-- C2 amended: provided the panic (fatal) policy does not fire — that is,
`panicOnError` is false, or the invocation succeeded — a failing
invocation under `stopOnError` returns the results with `continue = false`
and starts no downstream spawn; otherwise (success, or failure with
`stopOnError = false`) `execWorker` returns `continue = true` and starts
one downstream invocation, carrying this invocation's results, for exactly
the configured downstream ids that are present in the registry (absent ids
are skipped). -/
theorem execWorker_halt_or_cascade
    (V E : Type) (reg : List (String × workplace V E)) (wp : workplace V E)
    (args : List V)
    (hp : wp.params.panicOnError = false ∨ (wp.worker args).2 = none) :
    ((wp.worker args).2 ≠ none → wp.params.stopOnError = true →
      (execWorker V E reg wp args).outcome =
        .returned (wp.worker args).1 false [])
    ∧ (((wp.worker args).2 = none ∨ wp.params.stopOnError = false) →
      (execWorker V E reg wp args).outcome =
        .returned (wp.worker args).1 true
          (spawnList V E reg wp.params.nextWorkers (wp.worker args).1))
    ∧ (∀ (id : String) (results : List V),
        (id, results) ∈ spawnList V E reg wp.params.nextWorkers
            (wp.worker args).1 ↔
          id ∈ wp.params.nextWorkers ∧ (lookupWp V E reg id).isSome
            ∧ results = (wp.worker args).1) := by
  refine ⟨?_, ?_, ?_⟩
  · intro herr hstop
    cases h2 : (wp.worker args).2 with
    | none => exact absurd h2 herr
    | some e =>
      have hpf : wp.params.panicOnError = false := by
        rcases hp with h | h
        · exact h
        · rw [h2] at h; exact absurd h (by simp)
      simp [execWorker, h2, hpf, hstop]
  · intro hor
    cases h2 : (wp.worker args).2 with
    | none => simp [execWorker, h2]
    | some e =>
      have hpf : wp.params.panicOnError = false := by
        rcases hp with h | h
        · exact h
        · rw [h2] at h; exact absurd h (by simp)
      rcases hor with h | h
      · rw [h2] at h; exact absurd h (by simp)
      · simp [execWorker, h2, hpf, h]
  · intro id results
    simp only [spawnList, List.mem_map, List.mem_filter]
    constructor
    · rintro ⟨a, ⟨ha, hlook⟩, heq⟩
      cases heq
      exact ⟨ha, by simpa using hlook, rfl⟩
    · rintro ⟨hin, hlook, rfl⟩
      exact ⟨id, ⟨hin, by simpa using hlook⟩, rfl⟩

/-- Witness for C2's amended theorem: `wpChain` invoked with `[2]` against
`regSample` succeeds with results `[2, 1]`, returns `continue = true`, and
spawns exactly one downstream invocation, at the present id `"w"` (the
absent id `"missing"` is skipped); and `wpPanicOk` — panic policy set, but
the invocation succeeds, so the policy does not fire — likewise returns
`continue = true` and cascades. -/
theorem execWorker_halt_or_cascade_witness :
    (execWorker Nat Nat regSample wpChain [2]).outcome =
      .returned [2, 1] true [("w", [2, 1])]
    ∧ (execWorker Nat Nat regSample wpPanicOk [4]).outcome =
      .returned [4] true [("w", [4])] :=
  ⟨(execWorker_halt_or_cascade Nat Nat regSample wpChain [2]
      (Or.inl rfl)).2.1 (Or.inl rfl),
   (execWorker_halt_or_cascade Nat Nat regSample wpPanicOk [4]
      (Or.inr rfl)).2.1 (Or.inl rfl)⟩

/-! ## C3: ticker strands and argument threading -/

/-- One successful tick: the trace records the current arguments and
continues with the invocation's results as the next tick's arguments. -/
theorem execWorkerWithTickerAux_succ_ok (V E : Type)
    (reg : List (String × workplace V E)) (wp : workplace V E)
    (fuel : Nat) (args : List V) (h : (wp.worker args).2 = none) :
    execWorkerWithTickerAux V E reg wp (fuel + 1) args =
      args :: execWorkerWithTickerAux V E reg wp fuel (wp.worker args).1 := by
  rw [execWorkerWithTickerAux, execWorker_ok V E reg wp args h]
  simp

/-- C3 counterexample: on `wpAppend` (initial arguments `[]`, worker
appending `0`), the second tick invokes the worker with the first tick's
results `[0]`, not with the configured initial arguments `[]` — ticks do
not start fresh. -/
theorem ticker_fresh_args_counterexample :
    execWorkerWithTickerTrace Nat Nat [] wpAppend 2 = [[], [0]]
    ∧ wpAppend.params.firstArgs = []
    ∧ ([0] : List Nat) ≠ [] := by
  refine ⟨rfl, rfl, by decide⟩

/-- C3 amended: a ticker strand's first tick invokes the worker with the
configured initial arguments, and every subsequent tick invokes it with the
previous tick's results — for every station and every sequence of
successful invocations, tick `k` (0-based) receives the `k`-fold result
iterate of the initial arguments. -/
theorem ticker_threads_results
    (V E : Type) (reg : List (String × workplace V E)) (wp : workplace V E)
    (hok : ∀ args, (wp.worker args).2 = none) (fuel : Nat) :
    execWorkerWithTickerTrace V E reg wp fuel =
      (List.range fuel).map
        (fun k => (fun a => (wp.worker a).1)^[k] wp.params.firstArgs) := by
  rw [execWorkerWithTickerTrace]
  generalize wp.params.firstArgs = args
  induction fuel generalizing args with
  | zero => simp [execWorkerWithTickerAux]
  | succ fuel ih =>
    rw [execWorkerWithTickerAux_succ_ok V E reg wp fuel args (hok args),
      ih (wp.worker args).1, List.range_succ_eq_map, List.map_cons,
      List.map_map]
    simp [Function.comp_def, Function.iterate_succ_apply]

/-- Witness for C3's amended theorem: three ticks of `wpAppend` invoke the
worker with `[]`, then `[0]`, then `[0, 0]`. -/
theorem ticker_threads_results_witness :
    execWorkerWithTickerTrace Nat Nat [] wpAppend 3 = [[], [0], [0, 0]] :=
  ticker_threads_results Nat Nat [] wpAppend (fun _ => rfl) 3

/-! ## C4: Begin's late-binding configuration override pass -/

/-- One iteration of `Begin`'s inner range loop returns the registry entry
unchanged: the configuration function only mutates the loop-local copy of
the map value. -/
theorem beginRangeIteration_eq (V E : Type) (param : WorkerParameter V)
    (entry : String × workplace V E) :
    beginRangeIteration V E param entry = entry := rfl

/-- `Begin`'s whole parameter-application pass leaves the registry
untouched, whatever the configuration functions are. -/
theorem beginApplyParams_eq (V E : Type)
    (reg : List (String × workplace V E))
    (params : List (WorkerParameter V)) :
    beginApplyParams V E reg params = reg := by
  induction params generalizing reg with
  | nil => rfl
  | cons p ps ih =>
    show beginApplyParams V E (reg.map (beginRangeIteration V E p)) ps = reg
    rw [show beginRangeIteration V E p = id from rfl, List.map_id]
    exact ih reg

/-- C4 (code bug): `Begin(Repeat(5))` on a director holding the repeat-3
station `"w"` completes without a usage error, yet the registry — which is
what `execWorkplace` reads to drive the strands — still carries repeat
count 3: the transform is applied to a discarded copy of the map value
(`for _, wp := range d.workplaces { param(&wp.params) }` mutates `wp`, a
copy), even though the same transform applied directly to the station's
configuration would set the repeat count to 5. -/
theorem begin_override_pass_is_lost :
    (Director.Begin Nat Nat directorSample [Repeat Nat 5]).2 = none
    ∧ (Director.Begin Nat Nat directorSample [Repeat Nat 5]).1.workplaces
        = directorSample.workplaces
    ∧ ((lookupWp Nat Nat
          (Director.Begin Nat Nat directorSample [Repeat Nat 5]).1.workplaces
          "w").map (fun wp => wp.params.amountOfExecutions) = some 3)
    ∧ (Repeat Nat 5 wpRepeat3.params).amountOfExecutions = 5 := by
  refine ⟨rfl, ?_, ?_, rfl⟩
  · show (beginApplyParams Nat Nat directorSample.workplaces [Repeat Nat 5])
        = directorSample.workplaces
    exact beginApplyParams_eq Nat Nat directorSample.workplaces [Repeat Nat 5]
  · rw [show (Director.Begin Nat Nat directorSample [Repeat Nat 5]).1.workplaces
        = beginApplyParams Nat Nat directorSample.workplaces [Repeat Nat 5]
      from rfl,
      beginApplyParams_eq Nat Nat directorSample.workplaces [Repeat Nat 5]]
    rfl

/-! ## C5: the downstream cascade never touches completion counters -/

/-- Notification effects leave the counter state unchanged. -/
theorem applyEffs_notify_map (E : Type) (s : SyncState) (id : String)
    (l : List E) :
    applyEffs E s (l.map (fun e => Eff.notify id e)) = s := by
  induction l with
  | nil => rfl
  | cons e t ih => exact ih

/-- `applyEffs` distributes over concatenation of effect sequences. -/
theorem applyEffs_append (E : Type) (s : SyncState) (a b : List (Eff E)) :
    applyEffs E s (a ++ b) = applyEffs E (applyEffs E s a) b :=
  List.foldl_append _ _ _ _

/-- The effects of an `execWorker` invocation and of its entire recursive
downstream cascade leave every completion counter unchanged. -/
theorem cascade_preserves_counters (V E : Type)
    (reg : List (String × workplace V E)) :
    ∀ (fuel : Nat) (wp : workplace V E) (args : List V) (s : SyncState),
      applyEffs E s (execWorkerCascadeEffs V E reg fuel wp args) = s := by
  intro fuel
  induction fuel with
  | zero => intro wp args s; rfl
  | succ fuel ih =>
    intro wp args s
    simp only [execWorkerCascadeEffs]
    have hflat : ∀ (spawns : List (String × List V)) (s : SyncState),
        applyEffs E s (spawns.flatMap fun sp =>
          match lookupWp V E reg sp.1 with
          | some nextWp => execWorkerCascadeEffs V E reg fuel nextWp sp.2
          | none => []) = s := by
      intro spawns
      induction spawns with
      | nil => intro s; rfl
      | cons sp rest ihs =>
        intro s
        rw [List.flatMap_cons, applyEffs_append]
        cases hlook : lookupWp V E reg sp.1 with
        | none => exact ihs s
        | some nextWp => rw [ih nextWp sp.2 s]; exact ihs s
    cases hout : (execWorker V E reg wp args).outcome with
    | panicked e => exact applyEffs_notify_map E s wp.id _
    | returned results cont spawns =>
      rw [applyEffs_append, applyEffs_notify_map E s wp.id _]
      exact hflat spawns s

/-- C5: downstream cascade invocations started by `execWorker`'s fan-out
never increment or decrement any station's loop, ticker or event counter —
applying the cascade's effects to any counter state is the identity — so
`Wait`'s unblocking condition is exactly what it was before the cascade:
`Wait` can return while cascaded invocations are still executing. -/
theorem cascade_does_not_affect_wait (V E : Type)
    (reg : List (String × workplace V E)) (fuel : Nat) (wp : workplace V E)
    (args : List V) (s : SyncState) (ids : List String) :
    applyEffs E s (execWorkerCascadeEffs V E reg fuel wp args) = s
    ∧ waitUnblocked ids
        (applyEffs E s (execWorkerCascadeEffs V E reg fuel wp args))
      = waitUnblocked ids s := by
  refine ⟨cascade_preserves_counters V E reg fuel wp args s, ?_⟩
  rw [cascade_preserves_counters V E reg fuel wp args s]

/-! ## C6: lifecycle usage errors leave the registry intact -/

/-- C6: `With` after start and `Begin` when already started each panic
with `DirectorAlreadyWorks`; `Wait` before start panics with
`DirectorNotWorks`; in each case the failing call leaves the director —
and in particular its registry of workplaces — exactly as it was. -/
theorem lifecycle_usage_errors (V E : Type) (d : Director V E)
    (worker : WorkerFun V E) (params : List (WorkerParameter V)) :
    (d.started = true →
      Director.With V E d worker params = (d, some .directorAlreadyWorks)
      ∧ Director.Begin V E d params = (d, some .directorAlreadyWorks))
    ∧ (d.started = false →
      Director.Wait V E d = (d, some .directorNotWorks)) := by
  constructor
  · intro h
    constructor
    · simp [Director.With, h]
    · simp [Director.Begin, h]
  · intro h
    simp [Director.Wait, h]

/-- Witness for C6: on the started fixture, `With` and `Begin` panic with
`DirectorAlreadyWorks` and return the director unchanged; on the
not-started fixture, `Wait` panics with `DirectorNotWorks` and returns the
director unchanged. -/
theorem lifecycle_usage_errors_witness :
    Director.With Nat Nat directorStarted (fun a => (a, none)) []
      = (directorStarted, some .directorAlreadyWorks)
    ∧ Director.Begin Nat Nat directorStarted []
      = (directorStarted, some .directorAlreadyWorks)
    ∧ Director.Wait Nat Nat directorSample
      = (directorSample, some .directorNotWorks) :=
  ⟨((lifecycle_usage_errors Nat Nat directorStarted (fun a => (a, none))
      []).1 rfl).1,
   ((lifecycle_usage_errors Nat Nat directorStarted (fun a => (a, none))
      []).1 rfl).2,
   (lifecycle_usage_errors Nat Nat directorSample (fun a => (a, none))
      []).2 rfl⟩

/-! ## C7: event strands -/

/-- C7: for an event-source station, (a) when every received value's
invocation lets the strand continue, each of the `events` received before
the channel closes triggers exactly one worker invocation with that value
as the sole argument, in receipt order, and the strand then exits; (b) when
the values in `pre` all continue and the invocation for `e` does not, the
strand processes `pre` in order, invokes once for `e`, and exits there —
the values after `e` trigger nothing. -/
theorem event_strand_invocations (V E : Type)
    (reg : List (String × workplace V E)) (wp : workplace V E) :
    (∀ events : List V,
      (∀ e ∈ events,
        outcomeContinues V E (execWorker V E reg wp [e]).outcome = true) →
      listenChannelTrace V E reg wp events = events.map (fun e => [e]))
    ∧ (∀ (pre : List V) (e : V) (rest : List V),
      (∀ x ∈ pre,
        outcomeContinues V E (execWorker V E reg wp [x]).outcome = true) →
      outcomeContinues V E (execWorker V E reg wp [e]).outcome = false →
      listenChannelTrace V E reg wp (pre ++ e :: rest)
        = (pre ++ [e]).map (fun x => [x])) := by
  constructor
  · intro events hall
    induction events with
    | nil => rfl
    | cons e t ih =>
      have he := hall e (by simp)
      rw [listenChannelTrace]
      cases hout : (execWorker V E reg wp [e]).outcome with
      | panicked err => rw [hout] at he; simp [outcomeContinues] at he
      | returned results cont spawns =>
        rw [hout] at he
        cases cont with
        | false => simp [outcomeContinues] at he
        | true =>
          simp only [List.map_cons]
          rw [ih (fun x hx => hall x (by simp [hx]))]
          simp
  · intro pre e rest hpre hstop
    induction pre with
    | nil =>
      rw [List.nil_append, listenChannelTrace]
      cases hout : (execWorker V E reg wp [e]).outcome with
      | panicked err => rfl
      | returned results cont spawns =>
        rw [hout] at hstop
        cases cont with
        | false => rfl
        | true => simp [outcomeContinues] at hstop
    | cons x t ih =>
      have hx := hpre x (by simp)
      rw [List.cons_append, listenChannelTrace]
      cases hout : (execWorker V E reg wp [x]).outcome with
      | panicked err => rw [hout] at hx; simp [outcomeContinues] at hx
      | returned results cont spawns =>
        rw [hout] at hx
        cases cont with
        | false => simp [outcomeContinues] at hx
        | true =>
          simp only [List.cons_append, List.map_cons]
          rw [ih (fun y hy => hpre y (by simp [hy]))]
          simp

/-- Witness for C7: an always-succeeding station receiving `10, 20, 30`
before the channel closes invokes the worker three times, with `[10]`,
`[20]`, `[30]`, in order; and a failing station with the halt policy
receiving `10, 20` stops after the first invocation. -/
theorem event_strand_invocations_witness :
    listenChannelTrace Nat Nat [] wpRepeat3 [10, 20, 30]
      = [[10], [20], [30]]
    ∧ listenChannelTrace Nat Nat [] wpPanicStop ([] ++ 10 :: [20])
      = [[10]] :=
  ⟨(event_strand_invocations Nat Nat [] wpRepeat3).1 [10, 20, 30]
      (fun e _ => rfl),
   (event_strand_invocations Nat Nat [] wpPanicStop).2 [] 10 [20]
      (fun x hx => absurd hx (List.not_mem_nil x)) rfl⟩

/-! ## C8: the deadline (timeout) decorator -/

/-- C8: the deadline decorator (i) returns the distinct timeout error when
the timer fires strictly before the wrapped worker delivers (and the scope
has not expired by then); (ii) returns the wrapped worker's own result or
error when the worker delivers strictly first; (iii) returns the
cancellation scope's own error when the scope expires strictly first; and
(iv) the three error kinds — timeout, scope expiry, worker failure — are
pairwise distinguishable. -/
theorem timeout_middleware_cases (V E : Type) (ctxDoneAt : Option Nat)
    (timeout workDur : Nat) (workOut : List V ⊕ E) :
    (timeout < workDur → (∀ c, ctxDoneAt = some c → timeout < c) →
      TimeoutMiddlewareWork V E ctxDoneAt timeout workDur workOut
        = .timeoutError)
    ∧ (workDur < timeout → (∀ c, ctxDoneAt = some c → workDur < c) →
      TimeoutMiddlewareWork V E ctxDoneAt timeout workDur workOut
        = (match workOut with
            | .inl results => .ok results
            | .inr e => .workerError e))
    ∧ (∀ c, ctxDoneAt = some c → c < timeout → c < workDur →
      TimeoutMiddlewareWork V E ctxDoneAt timeout workDur workOut
        = .ctxError)
    ∧ ((TMResult.timeoutError : TMResult V E) ≠ .ctxError
       ∧ (∀ e : E, (TMResult.timeoutError : TMResult V E) ≠ .workerError e)
       ∧ (∀ e : E, (TMResult.ctxError : TMResult V E) ≠ .workerError e)) := by
  refine ⟨?_, ?_, ?_, by simp, by simp, by simp⟩
  · intro hlt hctx
    cases hc : ctxDoneAt with
    | none => simp [TimeoutMiddlewareWork, Nat.le_of_lt hlt]
    | some c =>
      have := hctx c hc
      simp only [TimeoutMiddlewareWork]
      rw [if_neg (by omega)]
      simp [Nat.le_of_lt hlt]
  · intro hlt hctx
    cases hc : ctxDoneAt with
    | none =>
      simp only [TimeoutMiddlewareWork]
      rw [if_neg (by omega)]
    | some c =>
      have := hctx c hc
      simp only [TimeoutMiddlewareWork]
      rw [if_neg (by omega), if_neg (by omega)]
  · intro c hc hct hcw
    rw [hc]
    simp only [TimeoutMiddlewareWork]
    rw [if_pos (by omega)]

/-- Witness for C8: with bound 5 and a worker delivering result `[1]` at
time 10, the decorator returns the timeout error; with the worker failing
with error `3` at time 4 (bound 10, scope expiring at 9), it returns the
worker's own error; with the scope expiring at time 1 (bound 5, worker at
10), it returns the scope's error. -/
theorem timeout_middleware_cases_witness :
    TimeoutMiddlewareWork Nat Nat none 5 10 (Sum.inl [1]) = .timeoutError
    ∧ TimeoutMiddlewareWork Nat Nat (some 9) 10 4 (Sum.inr 3)
        = .workerError 3
    ∧ TimeoutMiddlewareWork Nat Nat (some 1) 5 10 (Sum.inl [1])
        = .ctxError :=
  ⟨(timeout_middleware_cases Nat Nat none 5 10 (Sum.inl [1])).1
      (by omega) (fun c hc => nomatch hc),
   (timeout_middleware_cases Nat Nat (some 9) 10 4 (Sum.inr 3)).2.1
      (by omega) (fun c hc => by cases hc; omega),
   (timeout_middleware_cases Nat Nat (some 1) 5 10 (Sum.inl [1])).2.2.1
      1 rfl (by omega) (by omega)⟩

/-! ## C9: a nil notify channel disables notification -/

/-- C9: applying `NotifyError(nil)` leaves the notify flag false, and a
station carrying the resulting configuration never sends on the (nil)
notify channel: `execWorker`'s notification list is empty for every
invocation, failing or not. -/
theorem notify_nil_disables_notification (V E : Type)
    (p : workerParams V) (reg : List (String × workplace V E))
    (worker : WorkerFun V E) (id : String) (args : List V) :
    (NotifyError V none p).notifyOnError = false
    ∧ (execWorker V E reg
        { id := id, worker := worker, params := NotifyError V none p }
        args).notified = [] := by
  refine ⟨rfl, ?_⟩
  cases herr : (worker args).2 with
  | none => simp [execWorker, herr]
  | some e =>
    simp only [execWorker, herr, NotifyError, Option.isSome_none,
      Bool.false_eq_true, if_false]
    split
    · rfl
    · split <;> rfl

/-! ## C10: the status decorator's counters -/

/-- C10: a `WorkplaceStatus.Work` call increments the total-executed
counter by exactly one (modulo the `uint64` wrap, and exactly when no wrap
occurs) and, on return, leaves the in-flight gauge at the value it had
before the call; `Busy` returns `true` exactly when the in-flight gauge is
zero. -/
theorem workplace_status_counters (V E : Type) (next : WorkerFun V E)
    (s : WorkplaceStatus) (args : List V)
    (hw : s.working < U64) (he : s.executed < U64) :
    (WorkplaceStatus.Work V E next s args).1.working = s.working
    ∧ (WorkplaceStatus.Work V E next s args).1.executed
        = (s.executed + 1) % U64
    ∧ (s.executed + 1 < U64 →
        (WorkplaceStatus.Work V E next s args).1.executed = s.executed + 1)
    ∧ (WorkplaceStatus.Busy s = true ↔ s.working = 0) := by
  have hU : U64 = 18446744073709551616 := by norm_num [U64]
  refine ⟨?_, rfl, ?_, ?_⟩
  · show ((s.working + 1) % U64 + (U64 - 1)) % U64 = s.working
    rw [hU] at hw ⊢
    omega
  · intro h
    show (s.executed + 1) % U64 = s.executed + 1
    rw [hU] at h ⊢
    omega
  · simp [WorkplaceStatus.Busy]

/-- Witness for C10: from counters `(working, executed) = (0, 5)`, a call
leaves the gauge at `0`, bumps the total to `6`, and `Busy` is `true` iff
the gauge is zero. -/
theorem workplace_status_counters_witness :
    (WorkplaceStatus.Work Nat Nat (fun a => (a, none)) ⟨0, 5⟩ []).1.working
        = 0
    ∧ (WorkplaceStatus.Work Nat Nat (fun a => (a, none)) ⟨0, 5⟩
        []).1.executed = 6
    ∧ (WorkplaceStatus.Busy ⟨0, 5⟩ = true ↔ (0 : Nat) = 0) :=
  ⟨(workplace_status_counters Nat Nat (fun a => (a, none)) ⟨0, 5⟩ []
      (by norm_num [U64]) (by norm_num [U64])).1,
   (workplace_status_counters Nat Nat (fun a => (a, none)) ⟨0, 5⟩ []
      (by norm_num [U64]) (by norm_num [U64])).2.2.1 (by norm_num [U64]),
   (workplace_status_counters Nat Nat (fun a => (a, none)) ⟨0, 5⟩ []
      (by norm_num [U64]) (by norm_num [U64])).2.2.2⟩

end Task
